import Mathlib

/-!
Shallow embedding of the persistent session & history store of the ATE
repository (src/session_manager.py, src/session_ui.py, src/search_history.py).

SQLite tables are modelled as Lean lists of row structures; an INSERT appends
a row, a DELETE filters rows out, and an UPDATE maps over the rows.  DATETIME
columns that the code only ever writes in the fixed format
"YYYY-MM-DD HH:MM:SS" (and compares as text, which for that format coincides
with chronological order) are modelled by integers where the claims need
date arithmetic, and are omitted where no claim mentions them.
-/

namespace ATE

/-! ## Session store (src/session_manager.py, src/session_ui.py)

Row of the chat_sessions table.  The columns session_title, created_at,
last_updated and is_active are not mentioned by the claims verified here and
are omitted; message_count and the ownership column user_login are kept. -/

structure SessionRow where
  session_id : String
  user_login : String
  message_count : Nat
deriving DecidableEq, Repr

/-- Row of the chat_messages table.  The message_id autoincrement key and the
timestamp column are omitted (no claim mentions them); insertion order of the
list plays the role of rowid order. -/
structure MessageRow where
  session_id : String
  role : String
  content : String
  message_index : Nat
deriving DecidableEq, Repr

/-- The chat-sessions database file: its two tables. -/
structure SessionDB where
  sessions : List SessionRow
  messages : List MessageRow
deriving DecidableEq, Repr

/-- SELECT COUNT(*) FROM chat_messages WHERE session_id = sid. -/
def countMessages (msgs : List MessageRow) (sid : String) : Nat :=
  msgs.countP (fun m => m.session_id == sid)

/-- SELECT COUNT(*) FROM chat_messages WHERE session_id = sid AND message_index = idx. -/
def countMessagesAt (msgs : List MessageRow) (sid : String) (idx : Nat) : Nat :=
  msgs.countP (fun m => m.session_id == sid && m.message_index == idx)

/-- SELECT ... FROM chat_sessions WHERE session_id = sid (session_id is the
primary key, so the first matching row is the unique one). -/
def findSession (db : SessionDB) (sid : String) : Option SessionRow :=
  db.sessions.find? (fun s => s.session_id == sid)

/-- SessionManager.save_message (src/session_manager.py:127-164): INSERTs the
message row, then UPDATEs the owning session row, setting message_count to
SELECT COUNT(*) of that session's message rows (evaluated after the insert).
The last_updated bump is omitted (not modelled).  Note this is a plain
INSERT: no uniqueness constraint on (session_id, message_index) exists and no
upsert clause is used. -/
def save_message (db : SessionDB) (sid role content : String) (idx : Nat) : SessionDB :=
  let msgs := db.messages ++ [⟨sid, role, content, idx⟩]
  { sessions := db.sessions.map (fun s =>
      if s.session_id == sid then { s with message_count := countMessages msgs sid } else s)
    messages := msgs }

/-- SessionManager.delete_session (src/session_manager.py:212-239): SELECTs the
stored owner; when the session is absent or the stored owner differs from the
caller it returns False having mutated nothing; otherwise it DELETEs the
session's message rows, then the session row, and returns True. -/
def delete_session (db : SessionDB) (sid user : String) : Bool × SessionDB :=
  match db.sessions.find? (fun s => s.session_id == sid) with
  | none => (false, db)
  | some s =>
    if s.user_login == user then
      (true,
       { sessions := db.sessions.filter (fun t => !(t.session_id == sid))
         messages := db.messages.filter (fun m => !(m.session_id == sid)) })
    else (false, db)

/-- Python truthiness of an optional string (None and the empty string are
falsy). -/
def isTruthyStr : Option String → Bool
  | none => false
  | some s => !(s == "")

/-- The re-insert loop of session_ui.save_current_session: for i, message in
enumerate(messages): save_message(sid, role, content, i), starting at i. -/
def save_messages_from (db : SessionDB) (sid : String) (i : Nat) :
    List (String × String) → SessionDB
  | [] => db
  | (role, content) :: rest =>
      save_messages_from (save_message db sid role content i) sid (i + 1) rest

/-- session_ui.save_current_session (src/session_ui.py:175-209): returns early
when there is no (truthy) current session id or the in-memory message list is
empty; otherwise DELETEs every chat_messages row of the session (without
touching message_count) and re-saves each in-memory message via save_message
at its position in the list.  The optional title update only touches
session_title/last_updated and is omitted. -/
def save_current_session (db : SessionDB) (sid? : Option String)
    (msgs : List (String × String)) : SessionDB :=
  if isTruthyStr sid? = false then db
  else if msgs.isEmpty then db
  else
    match sid? with
    | none => db
    | some sid =>
      let db1 : SessionDB :=
        { sessions := db.sessions
          messages := db.messages.filter (fun m => !(m.session_id == sid)) }
      save_messages_from db1 sid 0 msgs

/-- The mutating operations quantified over by the message_count invariant
claim: save_message, the full-session rewrite of save_current_session, and
delete_session. -/
inductive SessionOp where
  | save (sid role content : String) (idx : Nat)
  | replaceAll (sid? : Option String) (msgs : List (String × String))
  | delete (sid user : String)
deriving DecidableEq, Repr

def applySessionOp (db : SessionDB) : SessionOp → SessionDB
  | .save sid role content idx => save_message db sid role content idx
  | .replaceAll sid? msgs => save_current_session db sid? msgs
  | .delete sid user => (delete_session db sid user).2

def runSessionOps (db : SessionDB) : List SessionOp → SessionDB
  | [] => db
  | op :: rest => runSessionOps (applySessionOp db op) rest

/-- The consistency invariant: every stored session row's message_count column
equals the actual number of chat_messages rows carrying its session_id. -/
def countInv (db : SessionDB) : Prop :=
  ∀ s ∈ db.sessions, s.message_count = countMessages db.messages s.session_id

instance (db : SessionDB) : Decidable (countInv db) :=
  List.decidableBAll _ _

/-- Weakening of countInv that tolerates stale counts on the rows of one
session (the state in the middle of save_current_session, after its delete
phase and before its re-insert phase). -/
def countInvExceptAt (sid : String) (db : SessionDB) : Prop :=
  ∀ s ∈ db.sessions, s.session_id ≠ sid →
    s.message_count = countMessages db.messages s.session_id

/-! ### Counting lemmas -/

lemma countMessages_append_singleton (msgs : List MessageRow) (row : MessageRow) (t : String) :
    countMessages (msgs ++ [row]) t =
      countMessages msgs t + (if row.session_id == t then 1 else 0) := by
  simp [countMessages, List.countP_append, List.countP_cons]

lemma countMessages_filter_ne (msgs : List MessageRow) (sid t : String) (h : t ≠ sid) :
    countMessages (msgs.filter (fun m => !(m.session_id == sid))) t = countMessages msgs t := by
  induction msgs with
  | nil => rfl
  | cons m rest ih =>
    by_cases hm : m.session_id = sid
    · have h1 : (!(m.session_id == sid)) = false := by simp [hm]
      have h2 : (m.session_id == t) = false := by simp [hm]; exact fun he => h he.symm
      simp [countMessages, List.countP_cons, h1, h2] at ih ⊢
      exact ih
    · have h1 : (!(m.session_id == sid)) = true := by simp [hm]
      simp [countMessages, List.countP_cons, h1] at ih ⊢
      omega

lemma countInvExceptAt_of_countInv {db : SessionDB} (sid : String) (h : countInv db) :
    countInvExceptAt sid db :=
  fun s hs _ => h s hs

/-- save_message restores the invariant for the written session and preserves
it for all others, so it repairs any staleness confined to that session. -/
lemma countInv_save_of_exceptAt (db : SessionDB) (sid role content : String) (idx : Nat)
    (h : countInvExceptAt sid db) : countInv (save_message db sid role content idx) := by
  intro s hs
  have hmsgs : (save_message db sid role content idx).messages
      = db.messages ++ [⟨sid, role, content, idx⟩] := rfl
  have hsess : (save_message db sid role content idx).sessions
      = db.sessions.map (fun t =>
          if t.session_id == sid then
            { t with message_count := countMessages (db.messages ++ [⟨sid, role, content, idx⟩]) sid }
          else t) := rfl
  rw [hmsgs]
  rw [hsess, List.mem_map] at hs
  obtain ⟨s₀, hs₀, hmap⟩ := hs
  by_cases hid : (s₀.session_id == sid) = true
  · rw [if_pos hid] at hmap
    have hsid : s₀.session_id = sid := by simpa using hid
    subst hmap
    simp [hsid]
  · rw [if_neg hid] at hmap
    subst hmap
    have hne : s₀.session_id ≠ sid := by simpa using hid
    rw [countMessages_append_singleton]
    have hrow : ((⟨sid, role, content, idx⟩ : MessageRow).session_id == s₀.session_id) = false := by
      simp
      exact fun he => hne he.symm
    rw [hrow]
    simpa using h s₀ hs₀ hne

lemma countInv_save (db : SessionDB) (sid role content : String) (idx : Nat)
    (h : countInv db) : countInv (save_message db sid role content idx) :=
  countInv_save_of_exceptAt db sid role content idx (countInvExceptAt_of_countInv sid h)

lemma countInv_save_messages_from (sid : String) (msgs : List (String × String)) :
    ∀ (db : SessionDB) (i : Nat), countInv db → countInv (save_messages_from db sid i msgs) := by
  induction msgs with
  | nil => intro db i h; exact h
  | cons m rest ih =>
    intro db i h
    exact ih _ _ (countInv_save db sid m.1 m.2 i h)

lemma countInv_save_messages_from_of_exceptAt (db : SessionDB) (sid : String) (i : Nat)
    (m : String × String) (rest : List (String × String)) (h : countInvExceptAt sid db) :
    countInv (save_messages_from db sid i (m :: rest)) := by
  exact countInv_save_messages_from sid rest _ _
    (countInv_save_of_exceptAt db sid m.1 m.2 i h)

lemma countInvExceptAt_delete_messages (db : SessionDB) (sid : String) (h : countInv db) :
    countInvExceptAt sid
      { sessions := db.sessions
        messages := db.messages.filter (fun m => !(m.session_id == sid)) } := by
  intro s hs hne
  simpa [countMessages_filter_ne db.messages sid s.session_id hne] using h s hs

lemma countInv_save_current_session (db : SessionDB) (sid? : Option String)
    (msgs : List (String × String)) (h : countInv db) :
    countInv (save_current_session db sid? msgs) := by
  cases sid? with
  | none => simpa [save_current_session, isTruthyStr] using h
  | some sid =>
    by_cases hsid : sid = ""
    · simpa [save_current_session, isTruthyStr, hsid] using h
    · cases msgs with
      | nil => simpa [save_current_session, isTruthyStr, hsid] using h
      | cons m rest =>
        have hred : save_current_session db (some sid) (m :: rest) =
            save_messages_from
              { sessions := db.sessions
                messages := db.messages.filter (fun x => !(x.session_id == sid)) } sid 0
              (m :: rest) := by
          simp [save_current_session, isTruthyStr, hsid]
        rw [hred]
        exact countInv_save_messages_from_of_exceptAt _ sid 0 m rest
          (countInvExceptAt_delete_messages db sid h)

/-- Evaluation of delete_session when the session row is absent. -/
lemma delete_session_eq_of_none (db : SessionDB) (sid user : String)
    (hf : db.sessions.find? (fun t => t.session_id == sid) = none) :
    delete_session db sid user = (false, db) := by
  unfold delete_session
  rw [hf]

/-- Evaluation of delete_session when the stored owner differs from the caller. -/
lemma delete_session_eq_of_not_owner (db : SessionDB) (sid user : String) (s : SessionRow)
    (hf : db.sessions.find? (fun t => t.session_id == sid) = some s)
    (ho : s.user_login ≠ user) :
    delete_session db sid user = (false, db) := by
  unfold delete_session
  rw [hf]
  simp [ho]

/-- Evaluation of delete_session when the caller is the stored owner. -/
lemma delete_session_eq_of_owner (db : SessionDB) (sid user : String) (s : SessionRow)
    (hf : db.sessions.find? (fun t => t.session_id == sid) = some s)
    (ho : s.user_login = user) :
    delete_session db sid user =
      (true,
       { sessions := db.sessions.filter (fun t => !(t.session_id == sid))
         messages := db.messages.filter (fun m => !(m.session_id == sid)) }) := by
  unfold delete_session
  rw [hf]
  simp [ho]

lemma countInv_delete_session (db : SessionDB) (sid user : String) (h : countInv db) :
    countInv (delete_session db sid user).2 := by
  cases hf : db.sessions.find? (fun t => t.session_id == sid) with
  | none => rw [delete_session_eq_of_none db sid user hf]; exact h
  | some s =>
    by_cases ho : s.user_login = user
    · rw [delete_session_eq_of_owner db sid user s hf ho]
      intro t ht
      simp only [List.mem_filter] at ht
      have hne : t.session_id ≠ sid := by simpa using ht.2
      show t.message_count
          = countMessages (db.messages.filter (fun m => !(m.session_id == sid))) t.session_id
      rw [countMessages_filter_ne db.messages sid t.session_id hne]
      exact h t ht.1
    · rw [delete_session_eq_of_not_owner db sid user s hf ho]; exact h

lemma countInv_applySessionOp (db : SessionDB) (op : SessionOp) (h : countInv db) :
    countInv (applySessionOp db op) := by
  cases op with
  | save sid role content idx => exact countInv_save db sid role content idx h
  | replaceAll sid? msgs => exact countInv_save_current_session db sid? msgs h
  | delete sid user => exact countInv_delete_session db sid user h

lemma countInv_runSessionOps (ops : List SessionOp) :
    ∀ (db : SessionDB), countInv db → countInv (runSessionOps db ops) := by
  induction ops with
  | nil => intro db h; exact h
  | cons op rest ih => intro db h; exact ih _ (countInv_applySessionOp db op h)

/-- A successful delete_session leaves neither a session row nor any message
row carrying the deleted session id. -/
lemma delete_session_success_effect (db : SessionDB) (sid user : String)
    (h : (delete_session db sid user).1 = true) :
    findSession (delete_session db sid user).2 sid = none ∧
    countMessages (delete_session db sid user).2.messages sid = 0 := by
  cases hf : db.sessions.find? (fun t => t.session_id == sid) with
  | none =>
    rw [delete_session_eq_of_none db sid user hf] at h
    exact absurd h (by simp)
  | some s =>
    by_cases ho : s.user_login = user
    · rw [delete_session_eq_of_owner db sid user s hf ho]
      constructor
      · show (db.sessions.filter (fun t => !(t.session_id == sid))).find?
            (fun t => t.session_id == sid) = none
        rw [List.find?_eq_none]
        intro t ht
        rw [List.mem_filter] at ht
        simpa using ht.2
      · show (db.messages.filter (fun m => !(m.session_id == sid))).countP
            (fun m => m.session_id == sid) = 0
        rw [List.countP_eq_zero]
        intro m hm
        rw [List.mem_filter] at hm
        simpa using hm.2
    · rw [delete_session_eq_of_not_owner db sid user s hf ho] at h
      exact absurd h (by simp)

/-- C1: after any sequence of save_message, full-session rewrite
(save_current_session), and delete_session calls, starting from a state in
which every stored session's message_count matches its actual message rows,
every stored session's message_count still equals the number of chat_messages
rows carrying its session_id; and when such a sequence ends with a successful
delete_session of S, no session row and no message row of S remains. -/
theorem C1_message_count_invariant (db : SessionDB) (h : countInv db) (ops : List SessionOp) :
    countInv (runSessionOps db ops) ∧
    ∀ sid user, (delete_session (runSessionOps db ops) sid user).1 = true →
      findSession (delete_session (runSessionOps db ops) sid user).2 sid = none ∧
      countMessages (delete_session (runSessionOps db ops) sid user).2.messages sid = 0 :=
  ⟨countInv_runSessionOps ops db h,
   fun sid user hs => delete_session_success_effect (runSessionOps db ops) sid user hs⟩

def dbW : SessionDB := ⟨[⟨"s1", "alice", 0⟩], []⟩

def opsW : List SessionOp :=
  [.save "s1" "user" "hello" 0,
   .replaceAll (some "s1") [("user", "hello"), ("assistant", "hi there")],
   .save "s1" "user" "more" 2]

theorem C1_message_count_invariant_witness :
    countInv (runSessionOps dbW opsW) ∧
    (findSession (delete_session (runSessionOps dbW opsW) "s1" "alice").2 "s1" = none ∧
     countMessages (delete_session (runSessionOps dbW opsW) "s1" "alice").2.messages "s1" = 0) :=
  ⟨(C1_message_count_invariant dbW (by decide) opsW).1,
   (C1_message_count_invariant dbW (by decide) opsW).2 "s1" "alice" (by decide)⟩

/-! ### C3: save_message is a plain insert, not an upsert -/

def db3 : SessionDB := ⟨[⟨"s1", "alice", 1⟩], [⟨"s1", "user", "old", 0⟩]⟩

/-- C3 counterexample: session s1 already stores a message at index 0 with
content "old"; after save_message(s1, user, "new", 0) the session holds TWO
message rows at index 0 and the old content is still stored, so the call did
not replace the existing message and the session does not contain exactly one
message at that index. -/
theorem C3_counterexample :
    countMessagesAt (save_message db3 "s1" "user" "new" 0).messages "s1" 0 = 2 ∧
    (⟨"s1", "user", "old", 0⟩ : MessageRow) ∈ (save_message db3 "s1" "user" "new" 0).messages := by
  decide

/-- C3 amended: save_message always inserts an additional chat_messages row;
calling it with an index that already exists for the session leaves both the
old and the new message stored at that index (the per-index row count grows by
one and every previously stored row survives), so re-saving is not idempotent.
Avoidance of duplicates relies on save_current_session deleting all rows of
the session before re-inserting. -/
theorem C3_save_message_inserts (db : SessionDB) (sid role content : String) (idx : Nat) :
    countMessagesAt (save_message db sid role content idx).messages sid idx
      = countMessagesAt db.messages sid idx + 1 ∧
    (∀ m ∈ db.messages, m ∈ (save_message db sid role content idx).messages) ∧
    (⟨sid, role, content, idx⟩ : MessageRow) ∈ (save_message db sid role content idx).messages := by
  refine ⟨?_, ?_, ?_⟩
  · simp [save_message, countMessagesAt, List.countP_append, List.countP_cons]
  · intro m hm
    simp only [save_message, List.mem_append]
    exact Or.inl hm
  · simp [save_message]

theorem C3_save_message_inserts_witness :
    countMessagesAt (save_message db3 "s1" "user" "new" 0).messages "s1" 0
      = countMessagesAt db3.messages "s1" 0 + 1 ∧
    (⟨"s1", "user", "new", 0⟩ : MessageRow) ∈ (save_message db3 "s1" "user" "new" 0).messages :=
  ⟨(C3_save_message_inserts db3 "s1" "user" "new" 0).1,
   (C3_save_message_inserts db3 "s1" "user" "new" 0).2.2⟩

/-! ### C5: delete_session ownership check -/

/-- C5: delete_session returns false and leaves both tables unchanged when the
session is absent or the stored owner differs from the caller; when the caller
is the stored owner it returns true, removes the session row and every message
row of that session, and touches nothing else (rows of other sessions survive
in both tables, and no row appears that was not already stored). -/
theorem C5_delete_session_ownership (db : SessionDB) (sid user : String) :
    (findSession db sid = none → delete_session db sid user = (false, db)) ∧
    (∀ s, findSession db sid = some s → s.user_login ≠ user →
      delete_session db sid user = (false, db)) ∧
    (∀ s, findSession db sid = some s → s.user_login = user →
      (delete_session db sid user).1 = true ∧
      findSession (delete_session db sid user).2 sid = none ∧
      countMessages (delete_session db sid user).2.messages sid = 0 ∧
      (∀ t ∈ db.sessions, t.session_id ≠ sid → t ∈ (delete_session db sid user).2.sessions) ∧
      (∀ m ∈ db.messages, m.session_id ≠ sid → m ∈ (delete_session db sid user).2.messages) ∧
      (∀ t ∈ (delete_session db sid user).2.sessions, t ∈ db.sessions) ∧
      (∀ m ∈ (delete_session db sid user).2.messages, m ∈ db.messages)) := by
  refine ⟨?_, ?_, ?_⟩
  · intro hnone
    exact delete_session_eq_of_none db sid user hnone
  · intro s hs hne
    exact delete_session_eq_of_not_owner db sid user s hs hne
  · intro s hs howner
    have heq := delete_session_eq_of_owner db sid user s hs howner
    have hsucc : (delete_session db sid user).1 = true := by rw [heq]
    have heffect := delete_session_success_effect db sid user hsucc
    refine ⟨hsucc, heffect.1, heffect.2, ?_, ?_, ?_, ?_⟩
    · intro t ht hne
      rw [heq]
      show t ∈ db.sessions.filter (fun t => !(t.session_id == sid))
      rw [List.mem_filter]
      exact ⟨ht, by simpa using hne⟩
    · intro m hm hne
      rw [heq]
      show m ∈ db.messages.filter (fun m => !(m.session_id == sid))
      rw [List.mem_filter]
      exact ⟨hm, by simpa using hne⟩
    · intro t ht
      rw [heq] at ht
      have ht' : t ∈ db.sessions.filter (fun t => !(t.session_id == sid)) := ht
      rw [List.mem_filter] at ht'
      exact ht'.1
    · intro m hm
      rw [heq] at hm
      have hm' : m ∈ db.messages.filter (fun m => !(m.session_id == sid)) := hm
      rw [List.mem_filter] at hm'
      exact hm'.1

def db5 : SessionDB :=
  ⟨[⟨"s1", "alice", 1⟩, ⟨"s2", "bob", 1⟩],
   [⟨"s1", "user", "hello", 0⟩, ⟨"s2", "user", "hey", 0⟩]⟩

theorem C5_delete_session_ownership_witness :
    delete_session db5 "s1" "bob" = (false, db5) ∧
    delete_session db5 "zz" "alice" = (false, db5) ∧
    (delete_session db5 "s1" "alice").1 = true ∧
    findSession (delete_session db5 "s1" "alice").2 "s1" = none ∧
    countMessages (delete_session db5 "s1" "alice").2.messages "s1" = 0 :=
  ⟨(C5_delete_session_ownership db5 "s1" "bob").2.1 ⟨"s1", "alice", 1⟩ (by decide) (by decide),
   (C5_delete_session_ownership db5 "zz" "alice").1 (by decide),
   ((C5_delete_session_ownership db5 "s1" "alice").2.2 ⟨"s1", "alice", 1⟩ (by decide) rfl).1,
   ((C5_delete_session_ownership db5 "s1" "alice").2.2 ⟨"s1", "alice", 1⟩ (by decide) rfl).2.1,
   ((C5_delete_session_ownership db5 "s1" "alice").2.2 ⟨"s1", "alice", 1⟩ (by decide) rfl).2.2.1⟩

/-! ## History log store (src/search_history.py)

JSON values as Python's json module sees them: json.loads of a valid JSON
text produces one of these; json.dumps of such a value produces the
corresponding text. -/

inductive Json where
  | null
  | bool (b : Bool)
  | num (n : Int)
  | str (s : String)
  | arr (xs : List Json)
  | obj (fields : List (String × Json))

/-- Whether a Python value obtained from json.loads is a list. -/
def Json.isArr : Json → Bool
  | .arr _ => true
  | _ => false

/-- Classification of the text stored in a JSON-text column (price_details,
vendors, verified_urls), by how the read path treats it: SQL NULL (Python
None, falsy), the empty string (falsy), a non-empty text that is valid JSON
encoding the value v (truthy; the encoding of any JSON value is non-empty,
so a falsy text is never valid JSON), or a non-empty text that is not valid
JSON (truthy, json.loads raises ValueError on it). -/
inductive StoredJson where
  | sqlNull
  | emptyText
  | valid (v : Json)
  | malformed

/-- json.dumps applied to the Python value of an optional list-of-strings
field: Python None serializes to the valid JSON text "null" (encoding the
JSON null value), a list of strings to the JSON array text. -/
def dumpsListStr : Option (List String) → StoredJson
  | none => .valid .null
  | some l => .valid (.arr (l.map .str))

/-- get_search_history's per-field read logic
(src/search_history.py:206-220): json.loads(record[k] or '[]') with a bare
except defaulting to [].  SQL NULL and the empty text are falsy, so the
fallback text '[]' is parsed and yields the empty list; a malformed text
raises inside json.loads and the except clause substitutes the empty list;
but a valid JSON text parses successfully and its value — whatever it is —
is kept. -/
def load_list_field : StoredJson → Json
  | .sqlNull => .arr []
  | .emptyText => .arr []
  | .malformed => .arr []
  | .valid v => v

/-- Presence of a JSON key in the parsed tool-call arguments object: the key
can be absent, explicitly null, or hold a value of the schema's type. -/
inductive JField (α : Type) where
  | absent
  | null
  | val (v : α)

/-- Python dict.get(key, default): the default when the key is absent, None
(modelled as Option.none) when the key holds an explicit JSON null, else the
value. -/
def JField.pyGet {α : Type} (f : JField α) (d : α) : Option α :=
  match f with
  | .absent => some d
  | .null => none
  | .val v => some v

/-- The fields of the JSON object parsed from the LLM tool call's arguments,
per the DataInsights schema (src/search_history.py:20-28). -/
structure ParsedArgs where
  product_brand : JField String
  product_model : JField String
  price_details : JField (List String)
  vendors : JField (List String)
  notes : JField String
  verified_urls : JField (List String)

/-- parsed_json = an empty dict: every key absent. -/
def emptyParsedArgs : ParsedArgs := ⟨.absent, .absent, .absent, .absent, .absent, .absent⟩

/-- Outcome of invoking the extraction chain (the Record Extraction Adapter,
an external LLM call) at a particular (user_query, agent_response): the call
raises, returns a result without tool_calls, returns tool_calls whose
arguments fail json.loads, or returns tool_calls whose arguments parse to
the given object.  The adapter is external, so its outcome is an input of
the model. -/
inductive AdapterOutcome where
  | throws
  | noToolCalls
  | unparsableArgs
  | ok (args : ParsedArgs)

/-- The parsed_data dictionary built by extract_product_info. -/
structure ParsedData where
  product_brand : Option String
  product_model : Option String
  price_details : Option (List String)
  vendors : Option (List String)
  notes : Option String
  verified_urls : Option (List String)
  source : String

/-- Python truthiness of an optional list (None and the empty list are
falsy). -/
def truthyList : Option (List String) → Bool
  | none => false
  | some [] => false
  | some (_ :: _) => true

/-- The field extraction of extract_product_info
(src/search_history.py:100-109): each field via parsed_json.get with its
default, and source = "web" if the verified_urls value is truthy else
"database". -/
def parsedDataOfArgs (args : ParsedArgs) : ParsedData :=
  let urls := args.verified_urls.pyGet []
  { product_brand := args.product_brand.pyGet ""
    product_model := args.product_model.pyGet ""
    price_details := args.price_details.pyGet []
    vendors := args.vendors.pyGet []
    notes := args.notes.pyGet ""
    verified_urls := urls
    source := if truthyList urls then "web" else "database" }

/-- SearchHistoryManager.extract_product_info (src/search_history.py:81-113):
chain.invoke is NOT guarded — an exception from the adapter propagates to the
caller (modelled as Except.error).  A result without tool_calls, or one
whose arguments fail json.loads (that failure IS guarded, lines 91-95),
yields parsed_json = an empty dict and hence all-default fields. -/
def extract_product_info (outcome : AdapterOutcome) : Except Unit ParsedData :=
  match outcome with
  | .throws => .error ()
  | .noToolCalls => .ok (parsedDataOfArgs emptyParsedArgs)
  | .unparsableArgs => .ok (parsedDataOfArgs emptyParsedArgs)
  | .ok args => .ok (parsedDataOfArgs args)

/-- Row of the search_history table.  DATETIME values, written and filtered
in the fixed text format YYYY-MM-DD HH:MM:SS whose lexicographic order
coincides with chronological order, are modelled as integers (epoch
seconds). -/
structure HistoryRow where
  record_id : Nat
  timestamp : Int
  user_query : String
  product_brand : Option String
  product_model : Option String
  price_details : StoredJson
  vendors : StoredJson
  verified_urls : StoredJson
  source : String
  notes : Option String
  session_id : String

/-- The AUTOINCREMENT rowid assigned by the INSERT: strictly greater than
every record_id in the table, hence always positive. -/
def nextRecordId (db : List HistoryRow) : Nat :=
  (db.map (fun r => r.record_id)).foldr max 0 + 1

/-- Whether the sqlite layer of the logging call succeeds; storage failures
are environmental, so the outcome is an input of the model. -/
inductive StorageOutcome where
  | ok
  | fails

/-- The row INSERTed by log_search (src/search_history.py:133-148) for the
given extraction result. -/
def loggedRow (db : List HistoryRow) (user_query session_id : String) (now : Int)
    (pd : ParsedData) : HistoryRow :=
  { record_id := nextRecordId db
    timestamp := now
    user_query := user_query
    product_brand := pd.product_brand
    product_model := pd.product_model
    price_details := dumpsListStr pd.price_details
    vendors := dumpsListStr pd.vendors
    verified_urls := dumpsListStr pd.verified_urls
    source := pd.source
    notes := pd.notes
    session_id := session_id }

/-- SearchHistoryManager.log_search (src/search_history.py:115-159): calls
extract_product_info inside its own try block, so an adapter exception is
caught right there and the except clause returns -1 with nothing inserted;
otherwise it INSERTs the row built from the extraction and returns the new
rowid, and returns -1 leaving the table unchanged when the storage layer
fails.  agent_response influences the result only through the adapter
outcome.  Returns (returned id, table after the call). -/
def log_search (db : List HistoryRow) (user_query agent_response session_id : String)
    (outcome : AdapterOutcome) (storage : StorageOutcome) (now : Int) :
    Int × List HistoryRow :=
  match extract_product_info outcome with
  | .error _ => (-1, db)
  | .ok pd =>
    match storage with
    | .fails => (-1, db)
    | .ok => (Int.ofNat (nextRecordId db), db ++ [loggedRow db user_query session_id now pd])

/-- SQL LIKE with the pattern wrapped in percent signs on both sides
(src/search_history.py:175-181): a case-insensitive substring match (sqlite
LIKE is ASCII case-insensitive); a NULL column never matches.  Patterns
containing LIKE metacharacters are outside the model. -/
def likeContains (col : Option String) (pat : String) : Bool :=
  match col with
  | none => false
  | some s => decide (List.IsInfix (pat.data.map Char.toLower) (s.data.map Char.toLower))

/-- Condition appended for brand_filter; Python `if brand_filter:` skips it
for None and for the empty string. -/
def brandCond (bf : Option String) (r : HistoryRow) : Bool :=
  match bf with
  | none => true
  | some b => if b == "" then true else likeContains r.product_brand b

def modelCond (mf : Option String) (r : HistoryRow) : Bool :=
  match mf with
  | none => true
  | some m => if m == "" then true else likeContains r.product_model m

/-- Condition appended for date_from (timestamp >= date_from); a datetime
object is always truthy, so any given value is applied. -/
def dateFromCond (df : Option Int) (r : HistoryRow) : Bool :=
  match df with
  | none => true
  | some d => decide (d ≤ r.timestamp)

def dateToCond (dt : Option Int) (r : HistoryRow) : Bool :=
  match dt with
  | none => true
  | some d => decide (r.timestamp ≤ d)

def sessionCond (sid : Option String) (r : HistoryRow) : Bool :=
  match sid with
  | none => true
  | some s => if s == "" then true else r.session_id == s

/-- The WHERE clause of get_search_history (src/search_history.py:172-193):
the conjunction of the independently appended conditions. -/
def rowMatches (bf mf : Option String) (df dt : Option Int) (sid : Option String)
    (r : HistoryRow) : Bool :=
  brandCond bf r && modelCond mf r && dateFromCond df r && dateToCond dt r && sessionCond sid r

/-- ORDER BY timestamp DESC. -/
def tsDescRel (a b : HistoryRow) : Prop := b.timestamp ≤ a.timestamp

instance : DecidableRel tsDescRel :=
  fun a b => inferInstanceAs (Decidable (b.timestamp ≤ a.timestamp))

instance : IsTotal HistoryRow tsDescRel :=
  ⟨fun a b => le_total b.timestamp a.timestamp⟩

instance : IsTrans HistoryRow tsDescRel :=
  ⟨fun _ _ _ hab hbc => le_trans hbc hab⟩

/-- A record as returned to the caller of get_search_history: the row with
its three JSON-text columns parsed. -/
structure HistoryRecord where
  record_id : Nat
  timestamp : Int
  user_query : String
  product_brand : Option String
  product_model : Option String
  price_details : Json
  vendors : Json
  verified_urls : Json
  source : String
  notes : Option String
  session_id : String

/-- The dict-building loop of get_search_history
(src/search_history.py:202-222): copies the row and replaces each JSON-text
column by its parse per load_list_field. -/
def parseHistoryRow (r : HistoryRow) : HistoryRecord :=
  { record_id := r.record_id
    timestamp := r.timestamp
    user_query := r.user_query
    product_brand := r.product_brand
    product_model := r.product_model
    price_details := load_list_field r.price_details
    vendors := load_list_field r.vendors
    verified_urls := load_list_field r.verified_urls
    source := r.source
    notes := r.notes
    session_id := r.session_id }

/-- SearchHistoryManager.get_search_history (src/search_history.py:161-224):
SELECT * WHERE (appended filters) ORDER BY timestamp DESC LIMIT limit OFFSET
offset, then parse each row's JSON columns. -/
def get_search_history (db : List HistoryRow) (limit offset : Nat)
    (bf mf : Option String) (df dt : Option Int) (sid : Option String) :
    List HistoryRecord :=
  let rows := List.insertionSort tsDescRel (db.filter (rowMatches bf mf df dt sid))
  ((rows.drop offset).take limit).map parseHistoryRow

/-- SearchHistoryManager.clear_history (src/search_history.py:318-339):
DELETE FROM search_history (no retention window), or DELETE WHERE
timestamp < now - days_to_keep days (a day being 86400 seconds); the rows
kept are exactly those not matching the DELETE. -/
def clear_history (db : List HistoryRow) (now : Int) (days_to_keep : Option Int) :
    List HistoryRow :=
  match days_to_keep with
  | some n => db.filter (fun r => !(decide (r.timestamp < now - n * 86400)))
  | none => []

/-! ### C2: log_search on adapter failure -/

/-- C2 counterexample: with a perfectly healthy storage layer, an adapter
that THROWS makes log_search return the -1 sentinel and insert nothing —
the interaction is dropped and -1 is returned without any storage-level
failure, contradicting the claim that such a turn is still logged with
empty structured fields and a positive id. -/
theorem C2_counterexample :
    (log_search [] "q" "resp" "s1" AdapterOutcome.throws StorageOutcome.ok 0).1 = -1 ∧
    (log_search [] "q" "resp" "s1" AdapterOutcome.throws StorageOutcome.ok 0).2 = [] ∧
    ¬ (0 : Int) < (log_search [] "q" "resp" "s1" AdapterOutcome.throws StorageOutcome.ok 0).1 :=
  ⟨rfl, rfl, by decide⟩

/-- C2 amended: when the adapter returns a result with no tool calls, or one
whose arguments do not parse, log_search still inserts a record with empty
structured fields and source = "database" and returns its positive rowid;
but when the adapter THROWS, the exception is caught by log_search's own
handler, which returns -1 and inserts nothing — so -1 marks an adapter
exception as well as a storage-level failure, and only the
unparsable-output half of the adapter failure mode is logged best-effort. -/
theorem C2_log_search_best_effort (db : List HistoryRow) (q resp sid : String) (now : Int) :
    log_search db q resp sid AdapterOutcome.throws StorageOutcome.ok now = (-1, db) ∧
    (∀ outcome, log_search db q resp sid outcome StorageOutcome.fails now = (-1, db)) ∧
    (log_search db q resp sid AdapterOutcome.noToolCalls StorageOutcome.ok now
      = (Int.ofNat (nextRecordId db),
         db ++ [loggedRow db q sid now (parsedDataOfArgs emptyParsedArgs)]) ∧
     log_search db q resp sid AdapterOutcome.unparsableArgs StorageOutcome.ok now
      = (Int.ofNat (nextRecordId db),
         db ++ [loggedRow db q sid now (parsedDataOfArgs emptyParsedArgs)]) ∧
     (0 : Int) < Int.ofNat (nextRecordId db)) ∧
    ((loggedRow db q sid now (parsedDataOfArgs emptyParsedArgs)).source = "database" ∧
     (loggedRow db q sid now (parsedDataOfArgs emptyParsedArgs)).product_brand = some "" ∧
     (loggedRow db q sid now (parsedDataOfArgs emptyParsedArgs)).product_model = some "" ∧
     (loggedRow db q sid now (parsedDataOfArgs emptyParsedArgs)).price_details
       = StoredJson.valid (Json.arr []) ∧
     (loggedRow db q sid now (parsedDataOfArgs emptyParsedArgs)).vendors
       = StoredJson.valid (Json.arr []) ∧
     (loggedRow db q sid now (parsedDataOfArgs emptyParsedArgs)).verified_urls
       = StoredJson.valid (Json.arr [])) := by
  refine ⟨rfl, ?_, ⟨rfl, rfl, ?_⟩, rfl, rfl, rfl, rfl, rfl, rfl⟩
  · intro outcome
    cases outcome <;> rfl
  · exact Int.ofNat_pos.mpr (Nat.succ_pos _)

theorem C2_log_search_best_effort_witness :
    log_search [] "q" "" "s1" AdapterOutcome.throws StorageOutcome.ok 5 = (-1, []) ∧
    log_search [] "q" "" "s1" AdapterOutcome.unparsableArgs StorageOutcome.fails 5 = (-1, []) ∧
    (0 : Int) < Int.ofNat (nextRecordId []) ∧
    (loggedRow [] "q" "s1" 5 (parsedDataOfArgs emptyParsedArgs)).source = "database" :=
  ⟨(C2_log_search_best_effort [] "q" "" "s1" 5).1,
   (C2_log_search_best_effort [] "q" "" "s1" 5).2.1 AdapterOutcome.unparsableArgs,
   (C2_log_search_best_effort [] "q" "" "s1" 5).2.2.1.2.2,
   (C2_log_search_best_effort [] "q" "" "s1" 5).2.2.2.1⟩

/-! ### C4: source derivation from extracted URLs -/

/-- C4: when the extraction succeeds (the adapter returned a parsable object)
and storage succeeds, log_search appends exactly one row, and that row's
source column is "web" exactly when the extraction produced at least one
verified URL; whenever the verified_urls value is Python None or the empty
list, the stored source is "database".  The source never depends on the
response text other than through the extracted URLs: it is the indicator of
their presence. -/
theorem C4_source_from_urls (db : List HistoryRow) (q resp sid : String)
    (args : ParsedArgs) (now : Int) :
    (log_search db q resp sid (AdapterOutcome.ok args) StorageOutcome.ok now).2
      = db ++ [loggedRow db q sid now (parsedDataOfArgs args)] ∧
    ((loggedRow db q sid now (parsedDataOfArgs args)).source = "web"
      ↔ ∃ u us, args.verified_urls.pyGet [] = some (u :: us)) ∧
    (args.verified_urls.pyGet [] = none ∨ args.verified_urls.pyGet [] = some [] →
      (loggedRow db q sid now (parsedDataOfArgs args)).source = "database") := by
  have hsrc : (loggedRow db q sid now (parsedDataOfArgs args)).source
      = (if truthyList (args.verified_urls.pyGet []) then "web" else "database") := rfl
  refine ⟨rfl, ?_, ?_⟩
  · rw [hsrc]
    cases hurls : args.verified_urls.pyGet [] with
    | none => simp [truthyList]
    | some l =>
      cases l with
      | nil => simp [truthyList]
      | cons u us =>
        simp only [truthyList, if_true]
        constructor
        · intro _
          exact ⟨u, us, rfl⟩
        · intro _
          trivial
  · intro h
    rw [hsrc]
    rcases h with h | h <;> rw [h] <;> rfl

def argsWeb : ParsedArgs :=
  { product_brand := .val "Keysight", product_model := .val "34401A",
    price_details := .val ["1200 USD"], vendors := .val ["TestEquity"],
    notes := .val "", verified_urls := .val ["https://example.com/34401a"] }

def argsNoUrls : ParsedArgs :=
  { product_brand := .val "Keysight", product_model := .val "34401A",
    price_details := .absent, vendors := .absent,
    notes := .absent, verified_urls := .null }

theorem C4_source_from_urls_witness :
    (loggedRow [] "q" "s1" 0 (parsedDataOfArgs argsWeb)).source = "web" ∧
    (loggedRow [] "q" "s1" 0 (parsedDataOfArgs argsNoUrls)).source = "database" :=
  ⟨(C4_source_from_urls [] "q" "r" "s1" argsWeb 0).2.1.mpr
     ⟨"https://example.com/34401a", [], rfl⟩,
   (C4_source_from_urls [] "q" "r" "s1" argsNoUrls 0).2.2 (Or.inl rfl)⟩

/-! ### C6: filter composition, ordering and pagination of get_search_history -/

lemma mem_get_search_history (db : List HistoryRow) (limit offset : Nat)
    (bf mf : Option String) (df dt : Option Int) (sid : Option String)
    (rec : HistoryRecord) (h : rec ∈ get_search_history db limit offset bf mf df dt sid) :
    ∃ row, row ∈ db ∧ rowMatches bf mf df dt sid row = true ∧ rec = parseHistoryRow row := by
  unfold get_search_history at h
  rw [List.mem_map] at h
  obtain ⟨row, hrow, hrec⟩ := h
  have h1 : row ∈ List.insertionSort tsDescRel (db.filter (rowMatches bf mf df dt sid)) :=
    List.drop_subset _ _ (List.take_subset _ _ hrow)
  have h2 : row ∈ db.filter (rowMatches bf mf df dt sid) :=
    (List.perm_insertionSort tsDescRel _).subset h1
  rw [List.mem_filter] at h2
  exact ⟨row, h2.1, h2.2, hrec.symm⟩

lemma rowMatches_split {bf mf : Option String} {df dt : Option Int} {sid : Option String}
    {r : HistoryRow} (h : rowMatches bf mf df dt sid r = true) :
    brandCond bf r = true ∧ modelCond mf r = true ∧ dateFromCond df r = true ∧
    dateToCond dt r = true ∧ sessionCond sid r = true := by
  unfold rowMatches at h
  simp only [Bool.and_eq_true] at h
  exact ⟨h.1.1.1.1, h.1.1.1.2, h.1.1.2, h.1.2, h.2⟩

lemma likeContains_some {col : Option String} {pat : String}
    (h : likeContains col pat = true) :
    ∃ s, col = some s ∧ List.IsInfix (pat.data.map Char.toLower) (s.data.map Char.toLower) := by
  cases col with
  | none => simp [likeContains] at h
  | some s => exact ⟨s, rfl, by simpa [likeContains] using h⟩

lemma brandCond_some {b : String} {r : HistoryRow} (hb : b ≠ "")
    (h : brandCond (some b) r = true) :
    ∃ s, r.product_brand = some s ∧ List.IsInfix (b.data.map Char.toLower) (s.data.map Char.toLower) := by
  have hbne : (b == "") = false := by simpa using hb
  simp only [brandCond, hbne, Bool.false_eq_true, if_false] at h
  exact likeContains_some h

lemma modelCond_some {m : String} {r : HistoryRow} (hm : m ≠ "")
    (h : modelCond (some m) r = true) :
    ∃ s, r.product_model = some s ∧ List.IsInfix (m.data.map Char.toLower) (s.data.map Char.toLower) := by
  have hmne : (m == "") = false := by simpa using hm
  simp only [modelCond, hmne, Bool.false_eq_true, if_false] at h
  exact likeContains_some h

lemma dateFromCond_some {d : Int} {r : HistoryRow} (h : dateFromCond (some d) r = true) :
    d ≤ r.timestamp := by
  simpa [dateFromCond] using h

lemma dateToCond_some {d : Int} {r : HistoryRow} (h : dateToCond (some d) r = true) :
    r.timestamp ≤ d := by
  simpa [dateToCond] using h

lemma sessionCond_some {s : String} {r : HistoryRow} (hs : s ≠ "")
    (h : sessionCond (some s) r = true) : r.session_id = s := by
  have hne : (s == "") = false := by simpa using hs
  simp only [sessionCond, hne, Bool.false_eq_true, if_false] at h
  simpa using h

lemma sorted_get_search_history (db : List HistoryRow) (limit offset : Nat)
    (bf mf : Option String) (df dt : Option Int) (sid : Option String) :
    List.Pairwise (fun a b : HistoryRecord => b.timestamp ≤ a.timestamp)
      (get_search_history db limit offset bf mf df dt sid) := by
  unfold get_search_history
  apply List.Pairwise.map
  · intro a b hab
    exact hab
  · apply List.Pairwise.sublist
    · exact (List.take_sublist _ _).trans (List.drop_sublist _ _)
    · exact List.sorted_insertionSort tsDescRel _

lemma complete_get_search_history (db : List HistoryRow) (limit : Nat)
    (bf mf : Option String) (df dt : Option Int) (sid : Option String)
    (hlen : db.length ≤ limit) (row : HistoryRow) (hrow : row ∈ db)
    (hmatch : rowMatches bf mf df dt sid row = true) :
    parseHistoryRow row ∈ get_search_history db limit 0 bf mf df dt sid := by
  show parseHistoryRow row ∈
    List.map parseHistoryRow
      (List.take limit (List.drop 0 (List.insertionSort tsDescRel
        (List.filter (rowMatches bf mf df dt sid) db))))
  rw [List.drop_zero]
  have hmem : row ∈ db.filter (rowMatches bf mf df dt sid) :=
    List.mem_filter.mpr ⟨hrow, hmatch⟩
  have hmem2 : row ∈ List.insertionSort tsDescRel (db.filter (rowMatches bf mf df dt sid)) :=
    ((List.perm_insertionSort tsDescRel _).mem_iff).mpr hmem
  have hlen2 :
      (List.insertionSort tsDescRel (db.filter (rowMatches bf mf df dt sid))).length ≤ limit := by
    rw [(List.perm_insertionSort tsDescRel _).length_eq]
    exact le_trans (List.length_filter_le _ _) hlen
  rw [List.take_of_length_le hlen2]
  exact List.mem_map.mpr ⟨row, hmem2, rfl⟩

/-- C6: every record returned by get_search_history satisfies the conjunction
of the supplied filters — brand and model as case-insensitive substring
matches, date_from/date_to as an inclusive timestamp range, session_id as an
exact match; the result is ordered newest timestamp first; and with offset 0
and a limit of at least the table size, every matching record is returned
(pagination drops nothing), so the result is exactly the filtered set.  The
Agilent/date-window instance of the claim is this statement at
bf = some "Agilent", df = some T1, dt = some T2. -/
theorem C6_get_search_history_filters (db : List HistoryRow) (limit offset : Nat)
    (bf mf : Option String) (df dt : Option Int) (sid : Option String) :
    (∀ rec ∈ get_search_history db limit offset bf mf df dt sid,
      (∀ b, bf = some b → b ≠ "" →
        ∃ s, rec.product_brand = some s ∧ List.IsInfix (b.data.map Char.toLower) (s.data.map Char.toLower)) ∧
      (∀ m, mf = some m → m ≠ "" →
        ∃ s, rec.product_model = some s ∧ List.IsInfix (m.data.map Char.toLower) (s.data.map Char.toLower)) ∧
      (∀ d, df = some d → d ≤ rec.timestamp) ∧
      (∀ d, dt = some d → rec.timestamp ≤ d) ∧
      (∀ s, sid = some s → s ≠ "" → rec.session_id = s)) ∧
    List.Pairwise (fun a b : HistoryRecord => b.timestamp ≤ a.timestamp)
      (get_search_history db limit offset bf mf df dt sid) ∧
    (offset = 0 → db.length ≤ limit →
      ∀ row ∈ db, rowMatches bf mf df dt sid row = true →
        parseHistoryRow row ∈ get_search_history db limit offset bf mf df dt sid) := by
  refine ⟨?_, sorted_get_search_history db limit offset bf mf df dt sid, ?_⟩
  · intro rec hrec
    obtain ⟨row, hrowdb, hmatch, hreceq⟩ :=
      mem_get_search_history db limit offset bf mf df dt sid rec hrec
    obtain ⟨hb, hm, hf, ht, hs⟩ := rowMatches_split hmatch
    refine ⟨?_, ?_, ?_, ?_, ?_⟩
    · intro b hbf hbne
      subst hbf
      rw [hreceq]
      exact brandCond_some hbne hb
    · intro m hmf hmne
      subst hmf
      rw [hreceq]
      exact modelCond_some hmne hm
    · intro d hdf
      subst hdf
      rw [hreceq]
      exact dateFromCond_some hf
    · intro d hdt
      subst hdt
      rw [hreceq]
      exact dateToCond_some ht
    · intro s hsid hsne
      subst hsid
      rw [hreceq]
      exact sessionCond_some hsne hs
  · intro hoff hlen row hrow hmatch
    subst hoff
    exact complete_get_search_history db limit bf mf df dt sid hlen row hrow hmatch

def row61 : HistoryRow :=
  { record_id := 1, timestamp := 100, user_query := "price of 34401A",
    product_brand := some "Agilent HP Keysight", product_model := some "34401A",
    price_details := .valid (.arr []), vendors := .valid (.arr []),
    verified_urls := .valid (.arr []), source := "database", notes := some "",
    session_id := "s1" }

def row62 : HistoryRow :=
  { record_id := 2, timestamp := 150, user_query := "price of DMM6500",
    product_brand := some "Keithley", product_model := some "DMM6500",
    price_details := .valid (.arr []), vendors := .valid (.arr []),
    verified_urls := .valid (.arr []), source := "database", notes := some "",
    session_id := "s1" }

def db6 : List HistoryRow := [row61, row62]

theorem C6_get_search_history_filters_witness :
    parseHistoryRow row61
      ∈ get_search_history db6 50 0 (some "Agilent") none (some 50) (some 120) none ∧
    (∃ s, (parseHistoryRow row61).product_brand = some s ∧
      List.IsInfix ("Agilent".data.map Char.toLower) (s.data.map Char.toLower)) ∧
    (50 : Int) ≤ (parseHistoryRow row61).timestamp ∧
    (parseHistoryRow row61).timestamp ≤ 120 := by
  have hthm :=
    C6_get_search_history_filters db6 50 0 (some "Agilent") none (some 50) (some 120) none
  have hmem : parseHistoryRow row61
      ∈ get_search_history db6 50 0 (some "Agilent") none (some 50) (some 120) none :=
    hthm.2.2 rfl (by decide) row61 (List.mem_cons_self _ _) (by decide)
  have hprops := hthm.1 (parseHistoryRow row61) hmem
  exact ⟨hmem, hprops.1 "Agilent" rfl (by decide), hprops.2.2.1 50 rfl,
    hprops.2.2.2.1 120 rfl⟩

/-! ### C7: generate_session_title

Python string operations are modelled over the character list of the
string: strip (both ends, whitespace), slicing by character count, ASCII
str.lower, startswith. -/

def lowerStr (s : String) : String := String.mk (s.data.map Char.toLower)

def charsStartWith : List Char → List Char → Bool
  | _, [] => true
  | [], _ :: _ => false
  | c :: cs, p :: ps => c == p && charsStartWith cs ps

/-- Python s.startswith(pat). -/
def strStartsWith (s pat : String) : Bool := charsStartWith s.data pat.data

/-- Python s.strip(): removes leading and trailing whitespace. -/
def strTrim (s : String) : String :=
  String.mk (((s.data.dropWhile Char.isWhitespace).reverse.dropWhile Char.isWhitespace).reverse)

/-- Python s[:n]. -/
def strTake (s : String) (n : Nat) : String := String.mk (s.data.take n)

/-- Python s[n:]. -/
def strDrop (s : String) (n : Nat) : String := String.mk (s.data.drop n)

/-- Python len(s), in characters. -/
def strLen (s : String) : Nat := s.data.length

/-- The truncation step (src/session_manager.py:267-268): messages longer
than 50 characters are cut to their first 47 characters plus an ellipsis. -/
def truncate50 (s : String) : String :=
  if strLen s > 50 then strTake s 47 ++ "..." else s

/-- The fixed list prefixes_to_remove (src/session_manager.py:271-273), in
source order. -/
def leadInPhrases : List String :=
  ["what is", "what are", "how do", "how to", "can you", "please", "help me"]

/-- The for-loop over prefixes_to_remove (src/session_manager.py:275-279):
on the first phrase that prefixes the lowercased message, drop that many
characters, strip, and break. -/
def stripLoop (s : String) : List String → String
  | [] => s
  | p :: rest =>
    if strStartsWith (lowerStr s) p then strTrim (strDrop s (strLen p)) else stripLoop s rest

/-- The lead-in stripping step as a single lookup: remove the first matching
phrase of leadInPhrases (case-insensitive prefix match), if any. -/
def stripLeadIn (s : String) : String :=
  match leadInPhrases.find? (fun p => strStartsWith (lowerStr s) p) with
  | some p => strTrim (strDrop s (strLen p))
  | none => s

/-- The capitalization step (src/session_manager.py:282-283): uppercase the
first character, keep the rest. -/
def capitalizeFirst (s : String) : String :=
  match s.data with
  | [] => s
  | c :: cs => String.mk (c.toUpper :: cs)

/-- SessionManager.generate_session_title (src/session_manager.py:260-285).
The two datetime.now()-derived default titles are parameters (nowFull for
the %Y-%m-%d %H:%M format, nowHM for %H:%M).  Order of steps as in the
source: empty-input default, strip, truncate, lead-in removal loop,
capitalization, empty-after-cleaning default. -/
def generate_session_title (nowFull nowHM : String) (first_message : String) : String :=
  if first_message == "" then "Chat Session - " ++ nowFull
  else
    let c1 := strTrim first_message
    let c2 := truncate50 c1
    let c3 := stripLoop c2 leadInPhrases
    let c4 := capitalizeFirst c3
    if c4 == "" then "Chat - " ++ nowHM else c4

/-- The claim's stated order of the same steps — trim, strip lead-in,
truncate, capitalize — written from the claim's words only, to compare
against the source's generate_session_title. -/
def generate_session_title_claimOrder (nowFull nowHM : String) (first_message : String) :
    String :=
  if first_message == "" then "Chat Session - " ++ nowFull
  else
    let c1 := strTrim first_message
    let c2 := stripLeadIn c1
    let c3 := truncate50 c2
    let c4 := capitalizeFirst c3
    if c4 == "" then "Chat - " ++ nowHM else c4

/-- C7 counterexample: on a long message starting with a lead-in phrase the
source truncates BEFORE stripping the phrase, so its result differs from the
claim's order (strip, then truncate) — the claimed step order does not
describe the code. -/
theorem C7_counterexample :
    generate_session_title "2025-01-01 12:00" "12:00"
        "can you tell me about the Agilent 34401A digital multimeter price"
      ≠ generate_session_title_claimOrder "2025-01-01 12:00" "12:00"
        "can you tell me about the Agilent 34401A digital multimeter price" := by
  decide

lemma stripLoop_eq_find (s : String) (ps : List String) :
    stripLoop s ps =
      (match ps.find? (fun p => strStartsWith (lowerStr s) p) with
        | some p => strTrim (strDrop s (strLen p))
        | none => s) := by
  induction ps with
  | nil => rfl
  | cons p rest ih =>
    cases hp : strStartsWith (lowerStr s) p with
    | true => simp [stripLoop, List.find?_cons, hp]
    | false => simp [stripLoop, List.find?_cons, hp, ih]

lemma stripLoop_eq_stripLeadIn (s : String) : stripLoop s leadInPhrases = stripLeadIn s :=
  stripLoop_eq_find s leadInPhrases

lemma strData_append (a b : String) : (a ++ b).data = a.data ++ b.data := rfl

/-- C7 amended: generate_session_title trims the input, truncates to at most
50 characters (first 47 plus "..." when longer than 50), THEN strips one
matching lead-in phrase from the fixed set by case-insensitive prefix match,
then capitalizes the first letter — truncation happens before the lead-in
strip, not after it as the claim orders the steps; an empty input, or an
input that is empty after cleaning, yields a timestamp-based default
title. -/
theorem C7_generate_session_title (nowFull nowHM fm : String) :
    (fm = "" → generate_session_title nowFull nowHM fm = "Chat Session - " ++ nowFull) ∧
    (fm ≠ "" →
      generate_session_title nowFull nowHM fm
        = (if capitalizeFirst (stripLeadIn (truncate50 (strTrim fm))) = ""
           then "Chat - " ++ nowHM
           else capitalizeFirst (stripLeadIn (truncate50 (strTrim fm))))) ∧
    (∀ s, strLen (truncate50 s) ≤ 50) ∧
    (∀ s, strLen s > 50 → truncate50 s = strTake s 47 ++ "...") ∧
    (∀ s, strLen s ≤ 50 → truncate50 s = s) := by
  refine ⟨?_, ?_, ?_, ?_, ?_⟩
  · intro h
    subst h
    rfl
  · intro h
    have hne : (fm == "") = false := by simpa using h
    simp only [generate_session_title, hne, Bool.false_eq_true, if_false,
      stripLoop_eq_stripLeadIn, beq_iff_eq]
  · intro s
    unfold truncate50
    by_cases h : strLen s > 50
    · rw [if_pos h]
      show (strTake s 47 ++ "...").data.length ≤ 50
      rw [strData_append, List.length_append]
      have h2 : (strTake s 47).data.length ≤ 47 := by
        show (s.data.take 47).length ≤ 47
        rw [List.length_take]
        exact Nat.min_le_left _ _
      have h3 : ("...".data).length = 3 := rfl
      omega
    · rw [if_neg h]
      unfold strLen at h ⊢
      omega
  · intro s h
    unfold truncate50
    rw [if_pos h]
  · intro s h
    unfold truncate50
    rw [if_neg (by omega : ¬ strLen s > 50)]

theorem C7_generate_session_title_witness :
    generate_session_title "NF" "HM" "what is an oscilloscope" = "An oscilloscope" ∧
    generate_session_title "NF" "HM" "" = "Chat Session - " ++ "NF" ∧
    strLen (truncate50 "abc") ≤ 50 := by
  refine ⟨?_, ?_, ?_⟩
  · have h := (C7_generate_session_title "NF" "HM" "what is an oscilloscope").2.1 (by decide)
    rw [h]
    decide
  · exact (C7_generate_session_title "NF" "HM" "").1 rfl
  · exact (C7_generate_session_title "NF" "HM" "x").2.2.1 "abc"

/-! ### C8: the Price Range cell of the CSV export -/

/-- Python min over a non-empty list, folded left from the first element. -/
def pyMin : Int → List Int → Int
  | x, [] => x
  | x, y :: ys => pyMin (min x y) ys

/-- Python max over a non-empty list, folded left from the first element. -/
def pyMax : Int → List Int → Int
  | x, [] => x
  | x, y :: ys => pyMax (max x y) ys

/-- An entry of a record's price_details list as _format_price_range reads it:
a dict with a numeric value under the key value.  The amount is modelled
exactly, in cents. -/
structure PriceEntry where
  value : Int

/-- Digits of the reversed decimal expansion, grouped in threes for the
thousands separator. -/
def chunk3 : List Char → List (List Char)
  | [] => []
  | a :: b :: c :: rest => [a, b, c] :: chunk3 rest
  | l => [l]

def commaJoin : List (List Char) → List Char
  | [] => []
  | [c] => c
  | c :: c2 :: rest => c ++ ',' :: commaJoin (c2 :: rest)

/-- The thousands-separated decimal rendering of a natural number, as
Python's format spec with a comma produces. -/
def groupedNat (n : Nat) : String :=
  String.mk (commaJoin (chunk3 ((Nat.repr n).data.reverse))).reverse

/-- Two-decimal rendering of the cents part. -/
def twoDigits (n : Nat) : String := (if n < 10 then "0" else "") ++ Nat.repr n

/-- The money rendering of f-string dollar-comma-dot-2f
(src/search_history.py:280-282) on an exact amount of cents: dollar sign,
sign, thousands-grouped dollars, dot, two-digit cents.  Binary-float
rounding of the source's float values is outside the model; amounts are
exact. -/
def fmtMoney (cents : Int) : String :=
  "$" ++ (if cents < 0 then "-" else "")
    ++ groupedNat (cents.natAbs / 100) ++ "." ++ twoDigits (cents.natAbs % 100)

/-- SearchHistoryManager._format_price_range (src/search_history.py:273-282):
No prices for an empty list, the single formatted value for one entry, and
min - max (each formatted) for two or more entries. -/
def _format_price_range (price_details : List PriceEntry) : String :=
  match price_details.map (fun p => p.value) with
  | [] => "No prices"
  | [v] => fmtMoney v
  | v :: rest => fmtMoney (pyMin v rest) ++ " - " ++ fmtMoney (pyMax v rest)

lemma pyMin_le_base : ∀ (l : List Int) (x : Int), pyMin x l ≤ x := by
  intro l
  induction l with
  | nil => intro x; exact le_refl x
  | cons y ys ih => intro x; exact le_trans (ih (min x y)) (min_le_left x y)

lemma pyMin_le_mem : ∀ (l : List Int) (x v : Int), v ∈ l → pyMin x l ≤ v := by
  intro l
  induction l with
  | nil => intro x v hv; cases hv
  | cons y ys ih =>
    intro x v hv
    rw [List.mem_cons] at hv
    rcases hv with rfl | hv
    · exact le_trans (pyMin_le_base ys (min x v)) (min_le_right x v)
    · exact ih (min x y) v hv

lemma pyMin_mem : ∀ (l : List Int) (x : Int), pyMin x l ∈ x :: l := by
  intro l
  induction l with
  | nil => intro x; exact List.mem_singleton.mpr rfl
  | cons y ys ih =>
    intro x
    have h := ih (min x y)
    rw [List.mem_cons] at h
    rcases h with h | h
    · rw [show pyMin x (y :: ys) = pyMin (min x y) ys from rfl, h]
      rcases le_total x y with hxy | hxy
      · rw [min_eq_left hxy]
        exact List.mem_cons_self _ _
      · rw [min_eq_right hxy]
        exact List.mem_cons_of_mem _ (List.mem_cons_self _ _)
    · rw [show pyMin x (y :: ys) = pyMin (min x y) ys from rfl]
      exact List.mem_cons_of_mem _ (List.mem_cons_of_mem _ h)

lemma pyMax_le_base : ∀ (l : List Int) (x : Int), x ≤ pyMax x l := by
  intro l
  induction l with
  | nil => intro x; exact le_refl x
  | cons y ys ih => intro x; exact le_trans (le_max_left x y) (ih (max x y))

lemma pyMax_le_mem : ∀ (l : List Int) (x v : Int), v ∈ l → v ≤ pyMax x l := by
  intro l
  induction l with
  | nil => intro x v hv; cases hv
  | cons y ys ih =>
    intro x v hv
    rw [List.mem_cons] at hv
    rcases hv with rfl | hv
    · exact le_trans (le_max_right x v) (pyMax_le_base ys (max x v))
    · exact ih (max x y) v hv

lemma pyMax_mem : ∀ (l : List Int) (x : Int), pyMax x l ∈ x :: l := by
  intro l
  induction l with
  | nil => intro x; exact List.mem_singleton.mpr rfl
  | cons y ys ih =>
    intro x
    have h := ih (max x y)
    rw [List.mem_cons] at h
    rcases h with h | h
    · rw [show pyMax x (y :: ys) = pyMax (max x y) ys from rfl, h]
      rcases le_total x y with hxy | hxy
      · rw [max_eq_right hxy]
        exact List.mem_cons_of_mem _ (List.mem_cons_self _ _)
      · rw [max_eq_left hxy]
        exact List.mem_cons_self _ _
    · rw [show pyMax x (y :: ys) = pyMax (max x y) ys from rfl]
      exact List.mem_cons_of_mem _ (List.mem_cons_of_mem _ h)

/-- C8: the Price Range cell is "No prices" for a record without price
entries, the single formatted value for exactly one entry, and min - max
(both formatted) for two or more entries with distinct prices — where the
rendered min and max really are a least and a greatest price of the record
and both occur among its prices. -/
theorem C8_price_range_cell (p q : PriceEntry) (rest : List PriceEntry)
    (h2 : ∃ a ∈ (p :: q :: rest).map PriceEntry.value,
          ∃ b ∈ (p :: q :: rest).map PriceEntry.value, a ≠ b) :
    _format_price_range [] = "No prices" ∧
    (∀ e : PriceEntry, _format_price_range [e] = fmtMoney e.value) ∧
    _format_price_range (p :: q :: rest)
      = fmtMoney (pyMin p.value (q.value :: rest.map PriceEntry.value)) ++ " - "
        ++ fmtMoney (pyMax p.value (q.value :: rest.map PriceEntry.value)) ∧
    (∀ v ∈ (p :: q :: rest).map PriceEntry.value,
      pyMin p.value (q.value :: rest.map PriceEntry.value) ≤ v ∧
      v ≤ pyMax p.value (q.value :: rest.map PriceEntry.value)) ∧
    pyMin p.value (q.value :: rest.map PriceEntry.value)
      ∈ (p :: q :: rest).map PriceEntry.value ∧
    pyMax p.value (q.value :: rest.map PriceEntry.value)
      ∈ (p :: q :: rest).map PriceEntry.value := by
  refine ⟨rfl, fun e => rfl, rfl, ?_, ?_, ?_⟩
  · intro v hv
    rw [show (p :: q :: rest).map PriceEntry.value
        = p.value :: q.value :: rest.map PriceEntry.value from rfl, List.mem_cons] at hv
    rcases hv with rfl | hv
    · exact ⟨pyMin_le_base _ _, pyMax_le_base _ _⟩
    · exact ⟨pyMin_le_mem _ _ _ hv, pyMax_le_mem _ _ _ hv⟩
  · exact pyMin_mem _ _
  · exact pyMax_mem _ _

theorem C8_price_range_cell_witness :
    _format_price_range [] = "No prices" ∧
    _format_price_range [⟨1999⟩] = "$19.99" ∧
    _format_price_range [⟨1999⟩, ⟨599⟩] = "$5.99 - $19.99" := by
  have h := C8_price_range_cell ⟨1999⟩ ⟨599⟩ [] (by decide)
  refine ⟨h.1, ?_, ?_⟩
  · rw [h.2.1 ⟨1999⟩]
    decide
  · rw [h.2.2.1]
    decide

/-! ### C9: clear_history retention -/

/-- C9: clear_history with no retention argument deletes everything; with
days_to_keep = n it removes exactly the records strictly older than
now minus n days (86400 n seconds) and keeps every other record. -/
theorem C9_clear_history (db : List HistoryRow) (now n : Int) :
    clear_history db now none = [] ∧
    (∀ r, r.timestamp < now - n * 86400 → r ∉ clear_history db now (some n)) ∧
    (∀ r ∈ db, now - n * 86400 ≤ r.timestamp → r ∈ clear_history db now (some n)) ∧
    (∀ r ∈ clear_history db now (some n), r ∈ db ∧ now - n * 86400 ≤ r.timestamp) := by
  refine ⟨rfl, ?_, ?_, ?_⟩
  · intro r hold hmem
    have hmem' : r ∈ db.filter (fun t => !(decide (t.timestamp < now - n * 86400))) := hmem
    rw [List.mem_filter] at hmem'
    have : ¬ (r.timestamp < now - n * 86400) := by simpa using hmem'.2
    exact this hold
  · intro r hr hkeep
    show r ∈ db.filter (fun t => !(decide (t.timestamp < now - n * 86400)))
    rw [List.mem_filter]
    refine ⟨hr, ?_⟩
    simpa using not_lt.mpr hkeep
  · intro r hmem
    have hmem' : r ∈ db.filter (fun t => !(decide (t.timestamp < now - n * 86400))) := hmem
    rw [List.mem_filter] at hmem'
    refine ⟨hmem'.1, ?_⟩
    have : ¬ (r.timestamp < now - n * 86400) := by simpa using hmem'.2
    exact not_lt.mp this

def rowOld : HistoryRow :=
  { record_id := 1, timestamp := 136000, user_query := "q1", product_brand := some "",
    product_model := some "", price_details := .valid (.arr []), vendors := .valid (.arr []),
    verified_urls := .valid (.arr []), source := "database", notes := some "",
    session_id := "s1" }

def rowNew : HistoryRow :=
  { record_id := 2, timestamp := 913600, user_query := "q2", product_brand := some "",
    product_model := some "", price_details := .valid (.arr []), vendors := .valid (.arr []),
    verified_urls := .valid (.arr []), source := "database", notes := some "",
    session_id := "s1" }

def db9 : List HistoryRow := [rowOld, rowNew]

theorem C9_clear_history_witness :
    clear_history db9 1000000 none = [] ∧
    rowNew ∈ clear_history db9 1000000 (some 7) ∧
    rowOld ∉ clear_history db9 1000000 (some 7) := by
  have h := C9_clear_history db9 1000000 7
  refine ⟨h.1, ?_, ?_⟩
  · exact h.2.2.1 rowNew (List.mem_cons_of_mem _ (List.mem_cons_self _ _)) (by decide)
  · exact h.2.1 rowOld (by decide)

/-! ### C10: JSON-text columns on the read path -/

def argsNullPrices : ParsedArgs :=
  { product_brand := .val "Keysight", product_model := .absent,
    price_details := .null, vendors := .absent, notes := .absent,
    verified_urls := .absent }

def rowNullJson : HistoryRow :=
  { record_id := 1, timestamp := 0, user_query := "q", product_brand := some "",
    product_model := some "", price_details := .valid .null,
    vendors := .valid (.arr []), verified_urls := .valid (.arr []),
    source := "database", notes := some "", session_id := "s1" }

/-- C10 counterexample: log_search stores the text produced by json.dumps of
Python None — the valid JSON text "null" — when the adapter returns an
explicit null price_details; that stored text is truthy and json.loads
parses it successfully, so get_search_history returns the record with
price_details equal to the JSON null value, which is not a list: not every
returned record has list-valued JSON fields. -/
theorem C10_counterexample :
    (loggedRow [] "q" "s1" 0 (parsedDataOfArgs argsNullPrices)).price_details
      = StoredJson.valid Json.null ∧
    (get_search_history [rowNullJson] 50 0 none none none none none).map
        (fun rec => rec.price_details) = [Json.null] ∧
    Json.isArr Json.null = false :=
  ⟨rfl, rfl, rfl⟩

/-- C10 amended: every record returned by get_search_history carries, for
each of price_details, vendors and verified_urls, exactly
load_list_field of the stored column text: the empty list when that text is
SQL NULL, empty, or malformed — but when the text is valid JSON of a
non-array value (such as "null", which log_search itself stores for a null
extracted list), the parsed non-list value is returned as-is, so
list-valuedness is not guaranteed. -/
theorem C10_json_fields (db : List HistoryRow) (limit offset : Nat)
    (bf mf : Option String) (df dt : Option Int) (sid : Option String) :
    (∀ rec ∈ get_search_history db limit offset bf mf df dt sid,
      ∃ row ∈ db,
        rec.price_details = load_list_field row.price_details ∧
        rec.vendors = load_list_field row.vendors ∧
        rec.verified_urls = load_list_field row.verified_urls) ∧
    load_list_field StoredJson.sqlNull = Json.arr [] ∧
    load_list_field StoredJson.emptyText = Json.arr [] ∧
    load_list_field StoredJson.malformed = Json.arr [] ∧
    (∀ v, load_list_field (StoredJson.valid v) = v) := by
  refine ⟨?_, rfl, rfl, rfl, fun v => rfl⟩
  intro rec hrec
  obtain ⟨row, hrow, _, hreceq⟩ :=
    mem_get_search_history db limit offset bf mf df dt sid rec hrec
  subst hreceq
  exact ⟨row, hrow, rfl, rfl, rfl⟩

theorem C10_json_fields_witness :
    load_list_field StoredJson.sqlNull = Json.arr [] ∧
    (∃ row ∈ [rowNullJson],
      (parseHistoryRow rowNullJson).price_details = load_list_field row.price_details ∧
      (parseHistoryRow rowNullJson).vendors = load_list_field row.vendors ∧
      (parseHistoryRow rowNullJson).verified_urls = load_list_field row.verified_urls) := by
  have h := C10_json_fields [rowNullJson] 50 0 none none none none none
  exact ⟨h.2.1, h.1 (parseHistoryRow rowNullJson) (List.mem_cons_self _ _)⟩

end ATE
